import Mathlib

/-!
Verification of the SEAG25 highlights generation pipeline
(`SEAG25/highlights/functions/generateHighlights.js`).

The JavaScript source is shallowly embedded: strings are Lean `String`s, but
every string operation the code uses (`trim`, `toUpperCase`, `toLowerCase`,
`split`, `includes`, `parseInt`, `padStart`) is re-implemented here on the
underlying character list, so that every definition is executable and every
concrete instance can be settled by `decide`.  JavaScript numbers are modelled
as exact integers (`Int`); the inputs handled by the pipeline stay far below
2^53, where this model is exact.  `trim`, `toUpperCase` and `toLowerCase` are
modelled on the character sets the pipeline's data uses (ASCII plus the common
whitespace code points); `parseInt(s, 10)` and `Number(s)` are modelled for
optionally signed decimal digit strings, which is their exact behaviour on
every input the pipeline feeds them.
-/

/-! ## Character and string primitives -/

/-- Whitespace characters recognised by JavaScript string trimming (the ASCII
whitespace characters plus NBSP and the BOM). -/
def isJsWhitespace (c : Char) : Bool :=
  c == ' ' || c == '\t' || c == '\n' || c == '\r' ||
  c == '\x0b' || c == '\x0c' || c == Char.ofNat 160 || c == Char.ofNat 65279

/-- Characters of a list with the leading and trailing whitespace removed. -/
def trimChars (l : List Char) : List Char :=
  ((l.reverse.dropWhile isJsWhitespace).reverse).dropWhile isJsWhitespace

/-- Model of JavaScript `String.prototype.trim`. -/
def jsTrim (s : String) : String :=
  String.mk (trimChars s.data)

/-- Model of JavaScript `toLowerCase` on one character (ASCII letters). -/
def lowerChar (c : Char) : Char :=
  if 65 ≤ c.toNat ∧ c.toNat ≤ 90 then Char.ofNat (c.toNat + 32) else c

/-- Model of JavaScript `toUpperCase` on one character (ASCII letters). -/
def upperChar (c : Char) : Char :=
  if 97 ≤ c.toNat ∧ c.toNat ≤ 122 then Char.ofNat (c.toNat - 32) else c

/-- Model of JavaScript `String.prototype.toLowerCase`. -/
def jsToLower (s : String) : String :=
  String.mk (s.data.map lowerChar)

/-- Model of JavaScript `String.prototype.toUpperCase`. -/
def jsToUpper (s : String) : String :=
  String.mk (s.data.map upperChar)

/-- Whether `pat` is a prefix of `l` (Boolean, structural). -/
def isPrefixList : List Char → List Char → Bool
  | [], _ => true
  | _ :: _, [] => false
  | a :: as, b :: bs => a == b && isPrefixList as bs

/-- Whether `pat` occurs as a contiguous run inside `l`. -/
def occursIn (l pat : List Char) : Bool :=
  if isPrefixList pat l then true
  else
    match l with
    | [] => false
    | _ :: t => occursIn t pat

/-- Model of JavaScript `String.prototype.includes`. -/
def strContains (s pat : String) : Bool :=
  occursIn s.data pat.data

/-- Value of the leading decimal-digit run of a character list; `none` when the
list does not start with a digit. -/
def digitsVal (l : List Char) : Option Nat :=
  let ds := l.takeWhile Char.isDigit
  if ds.isEmpty then none
  else some (ds.foldl (fun a c => a * 10 + (c.toNat - 48)) 0)

/-- Model of JavaScript `parseInt(s, 10)`: skip leading whitespace, read an
optional sign and then the longest decimal digit prefix; `none` models `NaN`. -/
def jsParseInt (s : String) : Option Int :=
  match s.data.dropWhile isJsWhitespace with
  | '-' :: rest => (digitsVal rest).map (fun n => -(n : Int))
  | '+' :: rest => (digitsVal rest).map (fun n => (n : Int))
  | l => (digitsVal l).map (fun n => (n : Int))

/-- Model of the JavaScript idiom `parseInt(s, 10) || 0`: `NaN`, `0` and `-0`
all collapse to `0`. -/
def jsParseIntOr0 (s : String) : Int :=
  match jsParseInt s with
  | none => 0
  | some v => v

/-- Model of JavaScript `Number(s)` (`ToNumber` on a string) restricted to
optionally signed decimal integer literals: the whole trimmed string must be a
digit run; the empty string converts to `0`; anything else is `NaN` (`none`). -/
def jsNumber (s : String) : Option Int :=
  match trimChars s.data with
  | [] => some 0
  | '-' :: rest =>
      if rest ≠ [] ∧ rest.all Char.isDigit then (digitsVal rest).map (fun n => -(n : Int)) else none
  | '+' :: rest =>
      if rest ≠ [] ∧ rest.all Char.isDigit then (digitsVal rest).map (fun n => (n : Int)) else none
  | l =>
      if l.all Char.isDigit then (digitsVal l).map (fun n => (n : Int)) else none

/-- Splitting a character list at every character satisfying `p`, keeping empty
runs, exactly as JavaScript `split` with a single-character-class separator. -/
def splitCharsAux (p : Char → Bool) : List Char → List (List Char)
  | [] => [[]]
  | c :: cs =>
      match splitCharsAux p cs with
      | [] => [[]]
      | h :: t => if p c then [] :: h :: t else (c :: h) :: t

/-- Model of JavaScript `String.prototype.split` with a one-character-class
separator (the source only splits on `":"`, `/[\/\-]/` and `/\n|,/`). -/
def splitOnChar (p : Char → Bool) (s : String) : List String :=
  (splitCharsAux p s.data).map String.mk

/-- Model of JavaScript `String(n).padStart(2, "0")` for a rendered number. -/
def padStart2 (s : String) : String :=
  if 2 ≤ s.data.length then s
  else String.mk (List.replicate (2 - s.data.length) '0') ++ s

/-! ## Head-to-head classification (`loadH2HSportsMapping`, `isH2HSport`) -/

/-- One data row of the `WA Template Mapping` rules table, already projected to
its SPORTS, DISCIPLINES and H2H columns (the sheet-loading and header-location
plumbing is outside the pipeline's logic). -/
structure MappingRow where
  sports : String
  disciplines : String
  h2h : String
deriving DecidableEq

/-- Splitting a multi-value rules cell on newlines and commas, as
`split(/\n|,/)` does. -/
def splitNlComma (s : String) : List String :=
  splitOnChar (fun c => c == '\n' || c == ',') s

/-- Keys contributed by one rules row, following `loadH2HSportsMapping`: rows
whose H2H flag trims and lowercases to `"yes"` contribute the cross product
`SPORT|DISCIPLINE` of their sport and discipline lists, or `SPORT|*` wildcard
keys when the discipline cell is empty. -/
def rowH2HKeys (row : MappingRow) : List String :=
  if jsToLower (jsTrim row.h2h) = "yes" then
    let sports := jsTrim row.sports
    let disciplines := jsTrim row.disciplines
    let sportList := if sports = "" then [] else (splitNlComma sports).map (fun s => jsToUpper (jsTrim s))
    let disciplineList := if disciplines = "" then [] else (splitNlComma disciplines).map (fun d => jsToUpper (jsTrim d))
    if sportList ≠ [] then
      if disciplineList ≠ [] then
        (sportList.map (fun sport => disciplineList.map (fun discipline => sport ++ "|" ++ discipline))).flatten
      else
        sportList.map (fun sport => sport ++ "|*")
    else []
  else []

/-- The H2H key set built from the whole rules table (the `Set` of
`loadH2HSportsMapping`, modelled as a list queried by membership). -/
def buildH2HCombinations (rows : List MappingRow) : List String :=
  (rows.map rowH2HKeys).flatten

/-- Model of `isH2HSport(sport, discipline, h2hMapping)`, line for line. -/
def isH2HSport (sport discipline : String) (h2hMapping : List String) : Bool :=
  if h2hMapping.isEmpty then false
  else
    let sportUpper := jsToUpper (jsTrim sport)
    let disciplineUpper := jsToUpper (jsTrim discipline)
    if disciplineUpper ≠ "" ∧ h2hMapping.contains (sportUpper ++ "|" ++ disciplineUpper) then true
    else if h2hMapping.contains (sportUpper ++ "|*") then true
    else if disciplineUpper = "" ∧ h2hMapping.contains (sportUpper ++ "|") then true
    else false

/-- The classification rule exactly as the specification words it: an exact
`(sport, discipline)` key, else the `(sport, *)` wildcard key, else — for an
empty discipline — the `(sport, "")` empty-discipline key, else individual.
Keys pair the trimmed, upper-cased sport and discipline. -/
def specH2HClassify (sport discipline : String) (h2hMapping : List String) : Bool :=
  let sportKey := jsToUpper (jsTrim sport)
  let disciplineKey := jsToUpper (jsTrim discipline)
  if h2hMapping.contains (sportKey ++ "|" ++ disciplineKey) then true
  else if h2hMapping.contains (sportKey ++ "|*") then true
  else if disciplineKey = "" ∧ h2hMapping.contains (sportKey ++ "|") then true
  else false

/-! ## Row filtering (`filterHighlightRows`) -/

/-- One data row of the competition sheet, projected through
`COLUMN_MAPPINGS` to the named cells the pipeline reads (raw, untrimmed cell
text; a missing cell is the empty string). -/
structure RawRow where
  sport : String
  sportTeamsg : String
  discipline : String
  event : String
  eventCustom : String
  eventGender : String
  stage : String
  heat : String
  venue : String
  dateSgp : String
  athleteName : String
  countrySgp : String
  timingSgp : String
  scoreSgp : String
  scoreCompetitor : String
  competitorName : String
  competitorCountry : String
  winDrawLose : String
  position : String
  finalPosition : String
  advanced : String
  medals : String
  remarks : String
deriving DecidableEq

/-- The null-marker strings of `filterHighlightRows`. -/
def nullMarkers : List String := ["na", "n/a", "none", "no medal", "nil"]

/-- The per-row eligibility test inside the `filterHighlightRows` loop: the
gold-medal gate, then the basic-field and result-field checks, split on the
opponent-presence heuristic. -/
def isEligibleRow (row : RawRow) : Bool :=
  let medalText := jsTrim (jsTrim row.medals)
  let isGoldMedal := medalText ≠ "" ∧ ¬ nullMarkers.contains (jsToLower medalText) ∧
    strContains (jsToLower medalText) "gold" = true
  if ¬ isGoldMedal then false
  else
    let isH2H := jsTrim row.competitorName ≠ "" ∧ jsTrim row.competitorCountry ≠ ""
    let hasBasic := jsTrim row.sport ≠ "" ∧ jsTrim row.event ≠ "" ∧
      jsTrim row.stage ≠ "" ∧ jsTrim row.athleteName ≠ ""
    if isH2H then
      decide (hasBasic ∧ (jsTrim row.scoreSgp ≠ "" ∨ jsTrim row.scoreCompetitor ≠ ""))
    else
      decide (hasBasic ∧ (jsTrim row.timingSgp ≠ "" ∨ jsTrim row.scoreSgp ≠ ""))

/-- Model of `filterHighlightRows` (the loop keeps exactly the rows passing the
eligibility test, in order). -/
def filterHighlightRows (data : List RawRow) : List RawRow :=
  data.filter isEligibleRow

/-- Row eligibility exactly as the claim words it: the medal field contains
"gold" case-insensitively and is no null-marker; sport, event, stage and
athlete name are non-empty after trimming; and a result is present — scores
for a row whose opponent name and country are both present, timing or score
otherwise. -/
def eligibleRowSpec (row : RawRow) : Bool :=
  let medal := jsTrim row.medals
  strContains (jsToLower medal) "gold" &&
  !(nullMarkers.contains (jsToLower medal)) &&
  !(jsTrim row.sport == "") && !(jsTrim row.event == "") &&
  !(jsTrim row.stage == "") && !(jsTrim row.athleteName == "") &&
  (if !(jsTrim row.competitorName == "") && !(jsTrim row.competitorCountry == "") then
     !(jsTrim row.scoreSgp == "") || !(jsTrim row.scoreCompetitor == "")
   else
     !(jsTrim row.timingSgp == "") || !(jsTrim row.scoreSgp == ""))

/-! ## Elapsed-time formatting (`formatTiming`) -/

/-- Model of `formatTiming`, line for line: empty input stays empty; the
trimmed string is split on `":"`; a three-segment time drops a zero hour (and
then a zero minute), a two-segment time drops a zero minute, anything else is
returned as trimmed; the kept hour and minute segments are re-rendered from
their `parseInt(..., 10) || 0` values, and the final segment is kept verbatim. -/
def formatTiming (timingStr : String) : String :=
  if timingStr = "" then ""
  else
    let result := jsTrim timingStr
    match splitOnChar (fun c => c == ':') result with
    | [p0, p1, p2] =>
        let hours := jsParseIntOr0 p0
        let minutes := jsParseIntOr0 p1
        if hours = 0 ∧ minutes = 0 then p2
        else if hours = 0 then toString minutes ++ ":" ++ p2
        else toString hours ++ ":" ++ toString minutes ++ ":" ++ p2
    | [p0, p1] =>
        let minutes := jsParseIntOr0 p0
        if minutes = 0 then p1
        else toString minutes ++ ":" ++ p1
    | _ => result

/-- Elapsed-time normalization exactly as the claim words it: drop the leading
zero-valued segments (hour, then minute, for three segments; minute for two),
and keep every segment that is not dropped exactly as it appeared in the
input. -/
def formatTimingClaim (timingStr : String) : String :=
  if timingStr = "" then ""
  else
    let result := jsTrim timingStr
    match splitOnChar (fun c => c == ':') result with
    | [p0, p1, p2] =>
        if jsParseIntOr0 p0 = 0 ∧ jsParseIntOr0 p1 = 0 then p2
        else if jsParseIntOr0 p0 = 0 then p1 ++ ":" ++ p2
        else p0 ++ ":" ++ p1 ++ ":" ++ p2
    | [p0, p1] =>
        if jsParseIntOr0 p0 = 0 then p1
        else p0 ++ ":" ++ p1
    | _ => result

/-- Elapsed-time normalization as amended: leading zero-valued segments are
dropped as the claim states, but each kept hour or minute segment is
re-rendered as the decimal numeral of its parsed value (so `"01"` renders as
`"1"` and `"00"` as `"0"`); only the final seconds segment is kept verbatim. -/
def formatTimingAmended (timingStr : String) : String :=
  if timingStr = "" then ""
  else
    let result := jsTrim timingStr
    match splitOnChar (fun c => c == ':') result with
    | [p0, p1, p2] =>
        if jsParseIntOr0 p0 = 0 ∧ jsParseIntOr0 p1 = 0 then p2
        else if jsParseIntOr0 p0 = 0 then toString (jsParseIntOr0 p1) ++ ":" ++ p2
        else toString (jsParseIntOr0 p0) ++ ":" ++ toString (jsParseIntOr0 p1) ++ ":" ++ p2
    | [p0, p1] =>
        if jsParseIntOr0 p0 = 0 then p1
        else toString (jsParseIntOr0 p0) ++ ":" ++ p1
    | _ => result

/-! ## Date normalization (`normalizeDate`) -/

/-- A calendar date as the JavaScript `Date` getters expose it
(`getFullYear`, `getMonth + 1`, `getDate`). -/
structure CivilDate where
  year : Int
  month : Int
  day : Int
deriving DecidableEq

/-- Gregorian-calendar leap-year rule. -/
def isLeapYear (y : Int) : Bool :=
  (y.emod 4 == 0 && y.emod 100 != 0) || y.emod 400 == 0

/-- Days in a month (month is 1-based). -/
def daysInMonth (y m : Int) : Int :=
  if m = 2 then (if isLeapYear y then 29 else 28)
  else if m = 4 ∨ m = 6 ∨ m = 9 ∨ m = 11 then 30
  else 31

/-- Days from the civil epoch 1970-01-01 to year/month/day (proleptic
Gregorian; the standard era-based conversion). -/
def daysFromCivil (y m d : Int) : Int :=
  let y1 := y - (if m ≤ 2 then 1 else 0)
  let era := y1.fdiv 400
  let yoe := y1 - era * 400
  let mp := (m + 9).emod 12
  let doy := (153 * mp + 2).fdiv 5 + d - 1
  let doe := yoe * 365 + yoe.fdiv 4 - yoe.fdiv 100 + doy
  era * 146097 + doe - 719468

/-- The civil date of a day count from 1970-01-01 (inverse of
`daysFromCivil`). -/
def civilFromDays (z : Int) : CivilDate :=
  let z1 := z + 719468
  let era := z1.fdiv 146097
  let doe := z1 - era * 146097
  let yoe := (doe - doe.fdiv 1460 + doe.fdiv 36524 - doe.fdiv 146096).fdiv 365
  let y := yoe + era * 400
  let doy := doe - (365 * yoe + yoe.fdiv 4 - yoe.fdiv 100)
  let mp := (5 * doy + 2).fdiv 153
  let d := doy - (153 * mp + 2).fdiv 5 + 1
  let m := mp + (if mp < 10 then 3 else -9)
  ⟨y + (if m ≤ 2 then 1 else 0), m, d⟩

/-- Model of the JavaScript `new Date(year, monthIndex, day)` constructor at
local midnight: a year 0..99 maps to 1900+year, the month index is folded into
the year, an out-of-range day rolls the date over, and a time value outside
the representable range yields an invalid date (`none`).  `none` arguments
model `NaN`. -/
def jsMakeDate (year month day : Option Int) : Option CivilDate :=
  match year, month, day with
  | some y, some m, some d =>
      let y1 := if 0 ≤ y ∧ y ≤ 99 then y + 1900 else y
      let y2 := y1 + m.fdiv 12
      let mi := m.emod 12 + 1
      let z := daysFromCivil y2 mi 1 + (d - 1)
      if z < -100000000 ∨ 100000000 < z then none
      else if 1 ≤ d ∧ d ≤ daysInMonth y2 mi then some ⟨y2, mi, d⟩
      else some (civilFromDays z)
  | _, _, _ => none

/-- The test of the regular expression `/^\d{4}-\d{2}-\d{2}$/`. -/
def isoShape (s : String) : Bool :=
  match s.data with
  | [a, b, c, d, e, f, g, h, i, j] =>
      a.isDigit && b.isDigit && c.isDigit && d.isDigit && e == '-' &&
      f.isDigit && g.isDigit && h == '-' && i.isDigit && j.isDigit
  | _ => false

/-- Rendering of a date as `normalizeDate` does on return:
`getFullYear`, dash, zero-padded month, dash, zero-padded day. -/
def renderCivil (cd : CivilDate) : String :=
  toString cd.year ++ "-" ++ padStart2 (toString cd.month) ++ "-" ++ padStart2 (toString cd.day)

/-- The value passed to `normalizeDate`: a string, a `Date` object (valid or
invalid), or anything else (null, undefined, numbers, other objects). -/
inductive JsDateInput where
  | str (s : String)
  | date (d : Option CivilDate)
  | other
deriving DecidableEq

/-- Model of `normalizeDate`.  `fallback` stands for the engine-defined
string parser `new Date(string)` reached only when the string does not split
into exactly three slash/dash parts; every theorem below avoids that path, so
its behaviour is left as a parameter. -/
def normalizeDate (fallback : String → Option CivilDate) : JsDateInput → String
  | .other => ""
  | .date none => ""
  | .date (some cd) => renderCivil cd
  | .str s =>
      if s = "" then ""
      else if isoShape s then s
      else
        let parts := splitOnChar (fun c => c == '/' || c == '-') s
        let dateObj :=
          match parts with
          | [p0, p1, p2] =>
              let day := jsParseInt p0
              let month := jsParseInt p1
              let year := jsParseInt p2
              if (match year with | some y => decide (2000 < y) | none => false) = true then
                jsMakeDate year (month.map (fun m => m - 1)) day
              else
                jsMakeDate (jsNumber p2) ((jsNumber p0).map (fun m => m - 1)) (jsNumber p1)
          | _ => fallback s
        match dateObj with
        | none => ""
        | some cd => renderCivil cd

/-- A fixed instance of the engine-defined string parser, used to state closed
facts about `normalizeDate` on inputs that never reach it. -/
def noFallback : String → Option CivilDate := fun _ => none

/-! ## Record normalization (`formatHighlightData`) and card building -/

/-- The normalized highlight record `formatHighlightData` returns. -/
structure Highlight where
  sport : String
  sportTeamsg : String
  discipline : String
  event : String
  eventCustom : String
  eventGender : String
  stage : String
  heat : String
  venue : String
  dateSgp : String
  athleteName : String
  countrySgp : String
  timingSgp : String
  scoreSgp : String
  scoreCompetitor : String
  competitorName : String
  competitorCountry : String
  winDrawLose : String
  position : String
  finalPosition : String
  advanced : String
  medals : String
  remarks : String
  type : String
deriving DecidableEq

/-- Model of `formatHighlightData(row, h2hMapping)`: every column is read
trimmed; the TeamSG sport and country fall back to the sport column and
`"SGP"`; the timing column is normalized; the classification tag is assigned
from the rule mapping (`none` models the `null` default argument). -/
def formatHighlightData (h2hMapping : Option (List String)) (row : RawRow) : Highlight :=
  let sport := jsTrim row.sport
  let isH2H := match h2hMapping with
    | some mapping => isH2HSport sport (jsTrim row.discipline) mapping
    | none => false
  { sport := sport
    sportTeamsg := if jsTrim row.sportTeamsg = "" then sport else jsTrim row.sportTeamsg
    discipline := jsTrim row.discipline
    event := jsTrim row.event
    eventCustom := jsTrim row.eventCustom
    eventGender := jsTrim row.eventGender
    stage := jsTrim row.stage
    heat := jsTrim row.heat
    venue := jsTrim row.venue
    dateSgp := jsTrim row.dateSgp
    athleteName := jsTrim row.athleteName
    countrySgp := if jsTrim row.countrySgp = "" then "SGP" else jsTrim row.countrySgp
    timingSgp := formatTiming (jsTrim row.timingSgp)
    scoreSgp := jsTrim row.scoreSgp
    scoreCompetitor := jsTrim row.scoreCompetitor
    competitorName := jsTrim row.competitorName
    competitorCountry := jsTrim row.competitorCountry
    winDrawLose := jsTrim row.winDrawLose
    position := jsTrim row.position
    finalPosition := jsTrim row.finalPosition
    advanced := jsTrim row.advanced
    medals := jsTrim row.medals
    remarks := jsTrim row.remarks
    type := if isH2H then "h2h" else "non-h2h" }

/-- Label and icon returned by `normalizeMedal`. -/
structure MedalParts where
  label : String
  icon : String
deriving DecidableEq

/-- Model of `normalizeMedal`: null-markers and unrecognised values give an
empty label and icon; otherwise a containment match on gold, silver or bronze
keeps the trimmed original as label and picks the tier's glyph. -/
def normalizeMedal (medalValue : String) : MedalParts :=
  if medalValue = "" then ⟨"", ""⟩
  else
    let medalText := jsToLower (jsTrim medalValue)
    if medalText = "" ∨ nullMarkers.contains medalText then ⟨"", ""⟩
    else if strContains medalText "gold" then ⟨jsTrim medalValue, "🥇"⟩
    else if strContains medalText "silver" then ⟨jsTrim medalValue, "🥈"⟩
    else if strContains medalText "bronze" then ⟨jsTrim medalValue, "🥉"⟩
    else ⟨"", ""⟩

/-- The curated country-to-flag table of `resolveFlag`, in source order:
key, flag code, file extension. -/
def flagTable : List (String × String × String) :=
  [("SGP", "SIN", "png"), ("SINGAPORE", "SIN", "png"),
   ("MAS", "MAS", "png"), ("MALAYSIA", "MAS", "png"),
   ("THA", "THA", "png"), ("THAILAND", "THA", "png"),
   ("PHI", "PHI", "png"), ("PHILIPPINES", "PHI", "png"),
   ("VIE", "VIE", "png"), ("VIETNAM", "VIE", "png"),
   ("INA", "INA", "png"), ("INDONESIA", "INA", "png"),
   ("MYA", "MYA", "png"), ("MYANMAR", "MYA", "png"),
   ("CAM", "CAM", "png"), ("CAMBODIA", "CAM", "png"),
   ("LAO", "LAO", "png"), ("LAOS", "LAO", "png"),
   ("BRU", "BRU", "jpg"), ("BRUNEI", "BRU", "jpg"),
   ("TLS", "TLS", "png"), ("TIMOR-LESTE", "TLS", "png")]

/-- Model of `resolveFlag`: exact lookup of the trimmed upper-cased country in
the flag table, then a bidirectional containment match over the table in
order; a miss yields no flag.  Returns `(icon, image)`. -/
def resolveFlag (countryValue : String) : String × String :=
  if countryValue = "" then ("", "")
  else
    let country := jsToUpper (jsTrim countryValue)
    if country = "" then ("", "")
    else
      match flagTable.find? (fun kv => kv.1 == country) with
      | some kv => ("", "flags/" ++ kv.2.1 ++ "." ++ kv.2.2)
      | none =>
          match flagTable.find? (fun kv => strContains country kv.1 || strContains kv.1 country) with
          | some kv => ("", "flags/" ++ kv.2.1 ++ "." ++ kv.2.2)
          | none => ("", "")

/-- Model of `generateResultSummary`. -/
def generateResultSummary (highlight : Highlight) : String :=
  let parts : List String :=
    (if highlight.type = "h2h" then
      if highlight.scoreSgp ≠ "" ∧ highlight.scoreCompetitor ≠ "" then
        [highlight.scoreSgp ++ "-" ++ highlight.scoreCompetitor]
      else if highlight.scoreSgp ≠ "" then [highlight.scoreSgp]
      else []
    else
      if highlight.timingSgp ≠ "" then ["Time: " ++ highlight.timingSgp]
      else if highlight.scoreSgp ≠ "" then ["Score: " ++ highlight.scoreSgp]
      else []) ++
    (if highlight.medals ≠ "" then [highlight.medals] else [])
  let joined := String.intercalate " | " parts
  if joined = "" then "Result information" else joined

/-- A competitor line of a card. -/
structure Competitor where
  flagIcon : String
  flagImage : String
  name : String
  country : String
  score : String
  isPrimary : Bool
deriving DecidableEq

/-- A rendered highlight card. -/
structure Card where
  index : Nat
  sport : String
  sportIconUrl : String
  medalLabel : String
  medalIcon : String
  athletes : String
  eventDetails : String
  resultSummary : String
  resultBadge : String
  competitors : List Competitor
deriving DecidableEq

/-- Model of `buildCardFromHighlight(highlight, index)`.  `iconFor` stands for
`getSportIconUrl`, whose lookup tables live on disk outside the repository's
sources; the card stores `iconFor` applied to the sport exactly where the code
calls `getSportIconUrl(sport)`. -/
def buildCardFromHighlight (iconFor : String → String) (highlight : Highlight) (index : Nat) : Card :=
  let sport := jsTrim (if highlight.sport = "" then "Sport Name" else highlight.sport)
  let sportTeamsg := jsTrim (if highlight.sportTeamsg = "" then sport else highlight.sportTeamsg)
  let eventCustom := jsTrim (if highlight.eventCustom = "" then highlight.event else highlight.eventCustom)
  let stage := jsTrim highlight.stage
  let eventDetails :=
    if eventCustom ≠ "" ∧ stage ≠ "" then eventCustom ++ " - " ++ stage
    else if eventCustom ≠ "" then eventCustom
    else if stage ≠ "" then stage
    else "Event Details"
  let scoreSgp := jsTrim highlight.scoreSgp
  let scoreCompetitor := jsTrim highlight.scoreCompetitor
  let timing := jsTrim highlight.timingSgp
  let isH2H := highlight.type = "h2h"
  let scores : String × String :=
    if isH2H then
      if scoreSgp ≠ "" ∧ scoreCompetitor ≠ "" then (scoreSgp, scoreCompetitor)
      else if scoreSgp ≠ "" then (scoreSgp, scoreCompetitor)
      else if scoreCompetitor ≠ "" then (scoreSgp, scoreCompetitor)
      else ("", "")
    else
      if scoreSgp ≠ "" then (scoreSgp, "")
      else if timing ≠ "" then (timing, "")
      else ("", "")
  let medal := normalizeMedal highlight.medals
  let primaryName := jsTrim (if highlight.athleteName = "" then "Athlete Name" else highlight.athleteName)
  let primaryCountry := jsTrim (if highlight.countrySgp = "" then "SGP" else highlight.countrySgp)
  let primaryFlag := resolveFlag primaryCountry
  let primary : Competitor :=
    { flagIcon := primaryFlag.1, flagImage := primaryFlag.2, name := primaryName,
      country := primaryCountry, score := scores.1, isPrimary := true }
  let competitors :=
    if isH2H then
      let competitorName := jsTrim highlight.competitorName
      let competitorCountry := jsTrim highlight.competitorCountry
      if competitorName ≠ "" ∨ competitorCountry ≠ "" then
        let opponentFlag := resolveFlag competitorCountry
        [primary,
         { flagIcon := opponentFlag.1, flagImage := opponentFlag.2,
           name := if competitorName = "" then "Opponent" else competitorName,
           country := competitorCountry, score := scores.2, isPrimary := false }]
      else [primary]
    else [primary]
  let resultBadge :=
    if jsTrim highlight.winDrawLose ≠ "" then jsTrim highlight.winDrawLose else medal.label
  { index := index
    sport := sportTeamsg
    sportIconUrl := iconFor sport
    medalLabel := medal.label
    medalIcon := medal.icon
    athletes := primaryName
    eventDetails := eventDetails
    resultSummary := generateResultSummary highlight
    resultBadge :=
      if resultBadge ≠ "" ∧ ¬ ["na", "n/a", "none"].contains (jsToLower resultBadge) then resultBadge
      else ""
    competitors := competitors }

/-- The result badge exactly as the claim words it: the trimmed win/draw/lose
field when present and not a null-marker, otherwise the medal label; a badge
that is itself a null-marker renders as the empty string. -/
def resultBadgeClaim (winDrawLose medalLabel : String) : String :=
  let base :=
    if jsTrim winDrawLose ≠ "" ∧ ¬ nullMarkers.contains (jsToLower (jsTrim winDrawLose)) then
      jsTrim winDrawLose
    else medalLabel
  if nullMarkers.contains (jsToLower base) then "" else base

/-- The result badge as amended: the badge source is the trimmed win/draw/lose
field whenever it is non-empty — even when it is a null-marker — and the medal
label otherwise; the badge is then suppressed exactly when it is empty or one
of `"na"`, `"n/a"`, `"none"` case-insensitively (`"no medal"` and `"nil"` are
not suppressed). -/
def resultBadgeAmended (winDrawLose medalLabel : String) : String :=
  let base := if jsTrim winDrawLose = "" then medalLabel else jsTrim winDrawLose
  if base = "" ∨ ["na", "n/a", "none"].contains (jsToLower base) then "" else base

/-! ## Pagination (`chunkCards`) -/

/-- Successive slices of at most `n + 1` elements, as the `chunkCards` loop
pushes `cards.slice(i, i + chunkSize)` for `i = 0, chunkSize, 2*chunkSize, …`
(stated with `n + 1` so the slice width is always positive). -/
def chunkSlices (n : Nat) (l : List α) : List (List α) :=
  match l with
  | [] => []
  | x :: xs => ((x :: xs).take (n + 1)) :: chunkSlices n (xs.drop n)
termination_by l.length
decreasing_by simp; omega

/-- Model of `chunkCards(cards, chunkSize)`: a non-positive chunk size returns
the whole list as one slide, otherwise the list is cut into slices of at most
`chunkSize` cards, and an empty slide list is replaced by a single empty
slide. -/
def chunkCards (cards : List α) (chunkSize : Nat) : List (List α) :=
  if chunkSize = 0 then [cards]
  else
    let slides := chunkSlices (chunkSize - 1) cards
    if slides.isEmpty then [[]] else slides

/-! ## Deck ordering (`generateHTML`, lines 845-855) -/

/-- Lexicographic comparison of character lists by code point.  This models
the comparator `(a, b) => a.sport.localeCompare(b.sport)`: `localeCompare`
uses the runtime's locale-aware collation, which agrees with code-point order
on the uniformly cased sport labels the pipeline feeds it; the model fixes it
to code-point order. -/
def charListLe : List Char → List Char → Bool
  | [], _ => true
  | _ :: _, [] => false
  | a :: as, b :: bs =>
      if a.toNat < b.toNat then true
      else if b.toNat < a.toNat then false
      else charListLe as bs

/-- The sort order on cards: by sport label. -/
def cardLe (a b : Card) : Bool :=
  charListLe a.sport.data b.sport.data

/-- Reassignment of the sequence indices `1..N` in list order, as the
`cards.forEach((card, idx) => { card.index = idx + 1 })` loop does starting
from `n = 1`. -/
def renumberFrom (n : Nat) : List Card → List Card
  | [] => []
  | c :: cs => { c with index := n } :: renumberFrom (n + 1) cs

/-- The sort-and-renumber step of `generateHTML`: a stable sort by sport label
followed by index reassignment.  `Array.prototype.sort` is stable, and every
stable sort computes the same list, so it is modelled by insertion sort. -/
def sortAndRenumber (cards : List Card) : List Card :=
  renumberFrom 1 (List.insertionSort (fun a b => cardLe a b = true) cards)

/-- Cards built from the highlight list with 1-based indices, as
`highlights.map((highlight, idx) => buildCardFromHighlight(highlight, idx + 1))`. -/
def buildCards (iconFor : String → String) (n : Nat) : List Highlight → List Card
  | [] => []
  | h :: hs => buildCardFromHighlight iconFor h n :: buildCards iconFor (n + 1) hs

/-- The card phase of `generateHTML`: build all cards, sort them by sport
label and renumber them. -/
def generateHTMLCards (iconFor : String → String) (highlights : List Highlight) : List Card :=
  sortAndRenumber (buildCards iconFor 1 highlights)

/-! ## Concrete sample values used by the closed instances -/

/-- The rules row of the Judo wildcard scenario: sport list `"Judo"`, empty
discipline cell, H2H flag `"yes"`. -/
def judoMappingRow : MappingRow :=
  { sports := "Judo", disciplines := "", h2h := "yes" }

/-- A fully populated sheet row whose medal cell is the null-marker `"NA"`. -/
def naRow : RawRow :=
  { sport := "Swimming", sportTeamsg := "Swimming", discipline := "", event := "100m Freestyle",
    eventCustom := "100m Freestyle", eventGender := "Men", stage := "Final", heat := "1",
    venue := "Aquatics Centre", dateSgp := "2025-12-11", athleteName := "Tan Wei",
    countrySgp := "SGP", timingSgp := "00:52.10", scoreSgp := "52.10", scoreCompetitor := "53.00",
    competitorName := "Lee Min", competitorCountry := "MAS", winDrawLose := "Win",
    position := "1", finalPosition := "1", advanced := "", medals := "NA", remarks := "" }

/-- A card used to build concrete decks. -/
def sampleCard : Card :=
  { index := 1, sport := "Judo", sportIconUrl := "", medalLabel := "Gold", medalIcon := "🥇",
    athletes := "Tan Wei", eventDetails := "Team - Final", resultSummary := "10-8 | Gold",
    resultBadge := "Win", competitors := [] }

/-- A card whose sport label sorts first. -/
def cardArchery : Card :=
  { sampleCard with sport := "Archery", athletes := "Ang" }

/-- A card whose sport label sorts second. -/
def cardBadminton : Card :=
  { sampleCard with sport := "Badminton", athletes := "Ben" }

/-- A normalized highlight record with sport `"Judo"` and athlete `"Alice"`. -/
def judoHighlightA : Highlight :=
  { sport := "Judo", sportTeamsg := "Judo", discipline := "", event := "Individual",
    eventCustom := "", eventGender := "Women", stage := "Final", heat := "", venue := "",
    dateSgp := "2025-12-11", athleteName := "Alice", countrySgp := "SGP", timingSgp := "",
    scoreSgp := "10", scoreCompetitor := "", competitorName := "", competitorCountry := "",
    winDrawLose := "", position := "1", finalPosition := "1", advanced := "",
    medals := "Gold", remarks := "", type := "non-h2h" }

/-- The same sport with athlete `"Betty"`: a sort tie with `judoHighlightA`. -/
def judoHighlightB : Highlight :=
  { judoHighlightA with athleteName := "Betty", scoreSgp := "9" }

/-- A head-to-head highlight whose win/draw/lose cell holds the null-marker
`"nil"` while its medal cell holds `"Gold"`. -/
def badgeHighlight : Highlight :=
  { sport := "Judo", sportTeamsg := "Judo", discipline := "Team", event := "Team",
    eventCustom := "Team", eventGender := "Men", stage := "Final", heat := "", venue := "",
    dateSgp := "2025-12-11", athleteName := "Tan Wei", countrySgp := "SGP", timingSgp := "",
    scoreSgp := "10", scoreCompetitor := "8", competitorName := "Lee Min",
    competitorCountry := "MAS", winDrawLose := "nil", position := "", finalPosition := "",
    advanced := "", medals := "Gold", remarks := "", type := "h2h" }

/-- A sheet row with empty sport, athlete, country and opponent-name cells and
a populated opponent country, exercising every placeholder at once. -/
def placeholderRow : RawRow :=
  { sport := "", sportTeamsg := "", discipline := "", event := "Team",
    eventCustom := "", eventGender := "", stage := "Final", heat := "", venue := "",
    dateSgp := "", athleteName := "", countrySgp := "", timingSgp := "",
    scoreSgp := "10", scoreCompetitor := "8", competitorName := "",
    competitorCountry := "MAS", winDrawLose := "", position := "", finalPosition := "",
    advanced := "", medals := "Gold", remarks := "" }
/-! ## Basic lemmas about the primitives -/

theorem dropWhile_dropWhile (p : Char → Bool) (l : List Char) :
    (l.dropWhile p).dropWhile p = l.dropWhile p := by
  induction l with
  | nil => simp
  | cons a t ih =>
      by_cases h : p a = true
      · simpa [List.dropWhile_cons, h] using ih
      · simp [List.dropWhile_cons, h]

theorem head?_dropWhile_not (p : Char → Bool) (l : List Char) (c : Char)
    (h : (l.dropWhile p).head? = some c) : p c = false := by
  induction l with
  | nil => simp at h
  | cons a t ih =>
      by_cases ha : p a = true
      · exact ih (by simpa [List.dropWhile_cons, ha] using h)
      · rw [List.dropWhile_cons] at h
        simp only [ha, if_false] at h
        have hac : a = c := by simpa using h
        subst hac
        simpa using ha

theorem dropWhile_eq_self_of_head (p : Char → Bool) (l : List Char)
    (h : ∀ c, l.head? = some c → p c = false) : l.dropWhile p = l := by
  cases l with
  | nil => simp
  | cons a t => simp [List.dropWhile_cons, h a rfl]

theorem trimChars_idem (l : List Char) : trimChars (trimChars l) = trimChars l := by
  unfold trimChars
  set m := (l.reverse.dropWhile isJsWhitespace).reverse with hm
  set t := m.dropWhile isJsWhitespace with ht
  have hlast : ∀ c, m.getLast? = some c → isJsWhitespace c = false := by
    intro c hc
    apply head?_dropWhile_not isJsWhitespace l.reverse c
    rwa [← List.head?_reverse, hm, List.reverse_reverse] at hc
  have htlast : ∀ c, t.getLast? = some c → isJsWhitespace c = false := by
    intro c hc
    apply hlast
    rw [ht] at hc
    rcases List.dropWhile_sublist (l := m) (p := isJsWhitespace) with hsub
    cases hmt : m.dropWhile isJsWhitespace with
    | nil => rw [hmt] at hc; simp at hc
    | cons x xs =>
        rw [hmt] at hc
        have hsuff : (x :: xs).IsSuffix m := by
          rcases List.dropWhile_suffix (p := isJsWhitespace) (l := m) with hs
          rwa [hmt] at hs
        rcases hsuff with ⟨pre, hpre⟩
        rw [← hpre, List.getLast?_append, hc]
        rfl
  have h1 : t.reverse.dropWhile isJsWhitespace = t.reverse := by
    apply dropWhile_eq_self_of_head
    intro c hc
    exact htlast c (by rwa [List.head?_reverse] at hc)
  rw [h1, List.reverse_reverse, ht, dropWhile_dropWhile]

theorem jsTrim_idem (s : String) : jsTrim (jsTrim s) = jsTrim s := by
  show String.mk (trimChars (trimChars s.data)) = String.mk (trimChars s.data)
  rw [trimChars_idem]

theorem mk_eq_empty_iff (l : List Char) :
    String.mk l = "" ↔ l = [] := by
  simp [String.ext_iff]


/-! ## Claim C1: head-to-head classification precedence -/

theorem isH2HSport_eq_spec (sport discipline : String) (mapping : List String) :
    isH2HSport sport discipline mapping = specH2HClassify sport discipline mapping := by
  unfold isH2HSport specH2HClassify
  by_cases hm : mapping.isEmpty
  · have hmas : mapping = [] := by simpa [List.isEmpty_iff] using hm
    subst hmas
    simp
  · simp only [hm, if_false]
    by_cases hd : jsToUpper (jsTrim discipline) = ""
    · rw [hd]
      have happ : jsToUpper (jsTrim sport) ++ "|" ++ "" = jsToUpper (jsTrim sport) ++ "|" := by
        simp [String.ext_iff]
      rw [happ]
      by_cases h1 : mapping.contains (jsToUpper (jsTrim sport) ++ "|") = true <;>
        by_cases h2 : mapping.contains (jsToUpper (jsTrim sport) ++ "|*") = true <;>
          simp [h1, h2] <;> tauto
    · by_cases h1 : mapping.contains (jsToUpper (jsTrim sport) ++ "|" ++ jsToUpper (jsTrim discipline)) = true <;>
        by_cases h2 : mapping.contains (jsToUpper (jsTrim sport) ++ "|*") = true <;>
          simp [h1, h2, hd]

/-- C1 (confirmed): `isH2HSport` decides the classification exactly by the
specified precedence — trimmed, case-normalized exact `(sport, discipline)`
key, else the `(sport, *)` wildcard key, else the empty-discipline key for an
empty discipline, else individual — and when the rules table holds a row with
sport `"Judo"`, empty discipline and flag `"yes"`, both
`classify("Judo", "Team")` and `classify("Judo", "Kata")` are head-to-head via
the wildcard key. -/
theorem isH2HSport_classifies (rows : List MappingRow) (hJudo : judoMappingRow ∈ rows) :
    (∀ sport discipline mapping,
      isH2HSport sport discipline mapping = specH2HClassify sport discipline mapping) ∧
    isH2HSport "Judo" "Team" (buildH2HCombinations rows) = true ∧
    isH2HSport "Judo" "Kata" (buildH2HCombinations rows) = true := by
  have hkey : "JUDO|*" ∈ buildH2HCombinations rows := by
    unfold buildH2HCombinations
    rw [List.mem_flatten]
    exact ⟨rowH2HKeys judoMappingRow, List.mem_map_of_mem _ hJudo, by decide⟩
  have hwild : ∀ d : String, jsToUpper (jsTrim d) ≠ "" →
      isH2HSport "Judo" d (buildH2HCombinations rows) = true := by
    intro d hd
    rw [isH2HSport_eq_spec]
    unfold specH2HClassify
    have hs : jsToUpper (jsTrim "Judo") = "JUDO" := by decide
    rw [hs]
    simp
    exact Or.inr (Or.inl hkey)
  exact ⟨isH2HSport_eq_spec, hwild "Team" (by decide), hwild "Kata" (by decide)⟩

/-- Witness for C1 at the one-row rules table `[judoMappingRow]`. -/
theorem isH2HSport_classifies_witness :
    isH2HSport "Judo" "Team" (buildH2HCombinations [judoMappingRow]) = true ∧
    isH2HSport "Judo" "Kata" (buildH2HCombinations [judoMappingRow]) = true :=
  ⟨(isH2HSport_classifies [judoMappingRow] (by decide)).2.1,
   (isH2HSport_classifies [judoMappingRow] (by decide)).2.2⟩

/-! ## Claim C2: row eligibility -/

theorem gold_means_nonempty (s : String)
    (hg : strContains (jsToLower s) "gold" = true) : s ≠ "" := by
  intro h
  subst h
  revert hg
  decide

theorem isEligibleRow_eq_spec (row : RawRow) : isEligibleRow row = eligibleRowSpec row := by
  rw [Bool.eq_iff_iff]
  unfold isEligibleRow eligibleRowSpec
  rw [jsTrim_idem]
  by_cases hg : strContains (jsToLower (jsTrim row.medals)) "gold" = true
  · have hne : jsTrim row.medals ≠ "" := gold_means_nonempty _ hg
    by_cases hm : jsToLower (jsTrim row.medals) ∈ nullMarkers
    · simp [hg, hne, hm]
    · by_cases hh : (jsTrim row.competitorName ≠ "" ∧ jsTrim row.competitorCountry ≠ "")
      · simp [hg, hne, hm, hh]
        tauto
      · simp [hg, hne, hm, hh]
        tauto
  · simp [hg]

/-- C2 (confirmed): `filterHighlightRows` keeps exactly the rows the claim
describes — gold medal that is no null-marker, non-empty sport, event, stage
and athlete name, and a result whose required fields depend on the
opponent-presence heuristic — and in particular a row whose medal field is
`"NA"` is always rejected. -/
theorem filterHighlightRows_spec (data : List RawRow) (row : RawRow)
    (hNA : jsTrim row.medals = "NA") :
    filterHighlightRows data = data.filter eligibleRowSpec ∧
    row ∉ filterHighlightRows data := by
  constructor
  · unfold filterHighlightRows
    exact List.filter_congr (fun x _ => isEligibleRow_eq_spec x)
  · intro hmem
    have h1 : isEligibleRow row = true := (List.mem_filter.mp hmem).2
    have h2 : isEligibleRow row = false := by
      unfold isEligibleRow
      rw [jsTrim_idem, hNA]
      have hc : jsToLower "NA" ∈ nullMarkers := by decide
      simp [hc]
    rw [h1] at h2
    simp at h2

/-- Witness for C2: the fully populated `naRow` with medal `"NA"` is rejected. -/
theorem filterHighlightRows_spec_witness :
    jsTrim naRow.medals = "NA" ∧ naRow ∉ filterHighlightRows [naRow] :=
  ⟨by decide, (filterHighlightRows_spec [naRow] naRow (by decide)).2⟩

/-! ## Claim C3: elapsed-time normalization -/

/-- C3 (corrected): `formatTiming` drops the leading zero-valued segments as
claimed, but the kept hour and minute segments are re-rendered as the decimal
numerals of their parsed values rather than verbatim; the seconds segment is
kept verbatim.  The spec's own examples hold. -/
theorem formatTiming_amended_spec :
    (∀ s, formatTiming s = formatTimingAmended s) ∧
    formatTiming "00:01:10.28" = "1:10.28" ∧
    formatTiming "01:00.10" = "1:00.10" ∧
    formatTiming "12.40" = "12.40" := by
  refine ⟨fun s => ?_, by decide, by decide, by decide⟩
  unfold formatTiming formatTimingAmended
  rfl

/-- Counterexample to C3 as stated: on `"01:00.10"` no segment is dropped
(the minute is non-zero), yet the minute segment `"01"` is re-rendered as
`"1"`, so the output differs from the claim's verbatim-segments prediction. -/
theorem formatTiming_claim_counterexample :
    formatTiming "01:00.10" = "1:00.10" ∧
    formatTimingClaim "01:00.10" = "01:00.10" ∧
    formatTiming "01:00.10" ≠ formatTimingClaim "01:00.10" := by decide

/-! ## Claim C4: zero hour and minute strip to the seconds segment -/

/-- C4 (confirmed): on a trimmed elapsed-time string of the three-part form
with hour segment `"00"` and minute segment `"00"`, `formatTiming` returns
exactly the seconds segment. -/
theorem formatTiming_zero_prefix (s sec : String)
    (htrim : jsTrim s = s)
    (hsplit : splitOnChar (fun c => c == ':') s = ["00", "00", sec]) :
    formatTiming s = sec := by
  have hne : s ≠ "" := by
    intro h
    have hlen : (splitOnChar (fun c => c == ':') "").length = 1 := by decide
    rw [h] at hsplit
    rw [hsplit] at hlen
    simp at hlen
  unfold formatTiming
  rw [if_neg hne, htrim]
  simp only [hsplit]
  have h0 : jsParseIntOr0 "00" = 0 := by decide
  simp [h0]

/-- Witness for C4 at `"00:00:12.40"`. -/
theorem formatTiming_zero_prefix_witness :
    formatTiming "00:00:12.40" = "12.40" :=
  formatTiming_zero_prefix "00:00:12.40" "12.40" (by decide) (by decide)

/-! ## Claim C5: deck ordering -/

theorem charListLe_total (x y : List Char) :
    charListLe x y = true ∨ charListLe y x = true := by
  induction x generalizing y with
  | nil => left; rfl
  | cons a as ih =>
      cases y with
      | nil => right; rfl
      | cons b bs =>
          by_cases hab : a.toNat < b.toNat
          · left; simp [charListLe, hab]
          · by_cases hba : b.toNat < a.toNat
            · right; simp [charListLe, hba]
            · rcases ih bs with h | h
              · left; simp [charListLe, hab, hba, h]
              · right; simp [charListLe, hab, hba, h]

theorem charListLe_trans (x y z : List Char)
    (hxy : charListLe x y = true) (hyz : charListLe y z = true) :
    charListLe x z = true := by
  induction x generalizing y z with
  | nil => rfl
  | cons a as ih =>
      cases y with
      | nil => simp [charListLe] at hxy
      | cons b bs =>
          cases z with
          | nil => simp [charListLe] at hyz
          | cons c cs =>
              simp only [charListLe] at hxy hyz ⊢
              by_cases hab : a.toNat < b.toNat
              · by_cases hbc : b.toNat < c.toNat
                · simp [show a.toNat < c.toNat by omega]
                · by_cases hcb : c.toNat < b.toNat
                  · simp [hbc, hcb] at hyz
                  · simp [show a.toNat < c.toNat by omega]
              · by_cases hba : b.toNat < a.toNat
                · simp [hab, hba] at hxy
                · simp [hab, hba] at hxy
                  by_cases hbc : b.toNat < c.toNat
                  · simp [show a.toNat < c.toNat by omega]
                  · by_cases hcb : c.toNat < b.toNat
                    · simp [hbc, hcb] at hyz
                    · simp [hbc, hcb] at hyz
                      have hac : ¬ a.toNat < c.toNat := by omega
                      have hca : ¬ c.toNat < a.toNat := by omega
                      simp [hac, hca]
                      exact ih bs cs hxy hyz

theorem charListLe_antisymm (x y : List Char)
    (hxy : charListLe x y = true) (hyx : charListLe y x = true) : x = y := by
  induction x generalizing y with
  | nil =>
      cases y with
      | nil => rfl
      | cons b bs => simp [charListLe] at hyx
  | cons a as ih =>
      cases y with
      | nil => simp [charListLe] at hxy
      | cons b bs =>
          simp only [charListLe] at hxy hyx
          by_cases hab : a.toNat < b.toNat
          · simp [show ¬ b.toNat < a.toNat by omega, hab] at hyx
          · by_cases hba : b.toNat < a.toNat
            · simp [hab, hba] at hxy
            · simp [hab, hba] at hxy hyx
              have hn : a.toNat = b.toNat := by omega
              have hc : a = b := by
                rw [← Char.ofNat_toNat a, ← Char.ofNat_toNat b, hn]
              rw [hc, ih bs hxy hyx]

theorem renumberFrom_renumberFrom (n : Nat) (l : List Card) :
    renumberFrom n (renumberFrom n l) = renumberFrom n l := by
  induction l generalizing n with
  | nil => rfl
  | cons c cs ih => simp [renumberFrom, ih]

theorem renumberFrom_map_sport (n : Nat) (l : List Card) :
    (renumberFrom n l).map Card.sport = l.map Card.sport := by
  induction l generalizing n with
  | nil => rfl
  | cons c cs ih => simp [renumberFrom, ih]

theorem renumberFrom_map_index (n : Nat) (l : List Card) :
    (renumberFrom n l).map Card.index = List.range' n l.length := by
  induction l generalizing n with
  | nil => rfl
  | cons c cs ih => simp [renumberFrom, ih, List.range'_succ]

theorem pairwise_cardLe_iff (l : List Card) :
    l.Pairwise (fun a b => cardLe a b = true) ↔
      (l.map Card.sport).Pairwise (fun s t => charListLe s.data t.data = true) := by
  rw [List.pairwise_map]
  rfl

theorem renumberFrom_pairwise (n : Nat) (l : List Card)
    (h : l.Pairwise (fun a b => cardLe a b = true)) :
    (renumberFrom n l).Pairwise (fun a b => cardLe a b = true) := by
  rw [pairwise_cardLe_iff, renumberFrom_map_sport, ← pairwise_cardLe_iff]
  exact h

theorem sortAndRenumber_sorted (cards : List Card) :
    (sortAndRenumber cards).Pairwise (fun a b => cardLe a b = true) := by
  haveI htot : IsTotal Card (fun a b => cardLe a b = true) :=
    ⟨fun a b => charListLe_total a.sport.data b.sport.data⟩
  haveI htrans : IsTrans Card (fun a b => cardLe a b = true) :=
    ⟨fun a b c => charListLe_trans a.sport.data b.sport.data c.sport.data⟩
  exact renumberFrom_pairwise 1 _
    (List.sorted_insertionSort (fun a b => cardLe a b = true) cards)

theorem sortAndRenumber_indices (cards : List Card) :
    (sortAndRenumber cards).map Card.index = List.range' 1 cards.length := by
  unfold sortAndRenumber
  rw [renumberFrom_map_index]
  rw [(List.perm_insertionSort (fun a b => cardLe a b = true) cards).length_eq]

theorem sortAndRenumber_idem (cards : List Card) :
    sortAndRenumber (sortAndRenumber cards) = sortAndRenumber cards := by
  haveI htot : IsTotal Card (fun a b => cardLe a b = true) :=
    ⟨fun a b => charListLe_total a.sport.data b.sport.data⟩
  haveI htrans : IsTrans Card (fun a b => cardLe a b = true) :=
    ⟨fun a b c => charListLe_trans a.sport.data b.sport.data c.sport.data⟩
  unfold sortAndRenumber
  rw [List.Sorted.insertionSort_eq
    (renumberFrom_pairwise 1 _
      (List.sorted_insertionSort (fun a b => cardLe a b = true) cards))]
  rw [renumberFrom_renumberFrom]

theorem sortAndRenumber_perm_eq (cards cards2 : List Card)
    (hperm : cards2.Perm cards) (hnodup : (cards.map Card.sport).Nodup) :
    sortAndRenumber cards2 = sortAndRenumber cards := by
  haveI htot : IsTotal Card (fun a b => cardLe a b = true) :=
    ⟨fun a b => charListLe_total a.sport.data b.sport.data⟩
  haveI htrans : IsTrans Card (fun a b => cardLe a b = true) :=
    ⟨fun a b c => charListLe_trans a.sport.data b.sport.data c.sport.data⟩
  have hstrict : ∀ l : List Card, l.Pairwise (fun a b => cardLe a b = true) →
      (l.map Card.sport).Nodup →
      l.Pairwise (fun a b => cardLe a b = true ∧ a.sport ≠ b.sport) := by
    intro l hle hnd
    exact hle.and (List.pairwise_map.mp hnd)
  haveI hanti : IsAntisymm Card (fun a b => cardLe a b = true ∧ a.sport ≠ b.sport) := by
    refine ⟨fun a b h1 h2 => absurd ?_ h1.2⟩
    exact String.ext_iff.mpr (charListLe_antisymm _ _ h1.1 h2.1)
  have hp1 := List.perm_insertionSort (fun a b => cardLe a b = true) cards
  have hp2 := List.perm_insertionSort (fun a b => cardLe a b = true) cards2
  have hperm12 : (List.insertionSort (fun a b => cardLe a b = true) cards2).Perm
      (List.insertionSort (fun a b => cardLe a b = true) cards) :=
    hp2.trans (hperm.trans hp1.symm)
  have hnd1 : ((List.insertionSort (fun a b => cardLe a b = true) cards).map Card.sport).Nodup :=
    ((hp1.map Card.sport).symm).nodup hnodup
  have hnd2 : ((List.insertionSort (fun a b => cardLe a b = true) cards2).map Card.sport).Nodup :=
    ((hp2.map Card.sport).trans (hperm.map Card.sport)).symm.nodup hnodup
  have hs1 := hstrict _ (List.sorted_insertionSort (fun a b => cardLe a b = true) cards) hnd1
  have hs2 := hstrict _ (List.sorted_insertionSort (fun a b => cardLe a b = true) cards2) hnd2
  have heq : List.insertionSort (fun a b => cardLe a b = true) cards2 =
      List.insertionSort (fun a b => cardLe a b = true) cards :=
    List.eq_of_perm_of_sorted hperm12 hs2 hs1
  unfold sortAndRenumber
  rw [heq]

/-- C5 (corrected): the sort-and-renumber step of `generateHTML` sorts the
cards by sport label ascending (stable sort, comparator modelled as
lexicographic order), reassigns indices `1..N` in the final order and is
idempotent; the final order is independent of the input order whenever the
sport labels are pairwise distinct — with tied sport labels the stable sort
preserves the input order of the tie, which is the part of the claim the
counterexample refutes. -/
theorem sortAndRenumber_spec (cards cards2 : List Card)
    (hperm : cards2.Perm cards) (hnodup : (cards.map Card.sport).Nodup) :
    (sortAndRenumber cards).Pairwise (fun a b => cardLe a b = true) ∧
    (sortAndRenumber cards).map Card.index = List.range' 1 cards.length ∧
    sortAndRenumber (sortAndRenumber cards) = sortAndRenumber cards ∧
    sortAndRenumber cards2 = sortAndRenumber cards :=
  ⟨sortAndRenumber_sorted cards, sortAndRenumber_indices cards,
   sortAndRenumber_idem cards, sortAndRenumber_perm_eq cards cards2 hperm hnodup⟩

/-- Witness for C5 on a concrete two-card deck with distinct sport labels. -/
theorem sortAndRenumber_spec_witness :
    sortAndRenumber [cardBadminton, cardArchery] = sortAndRenumber [cardArchery, cardBadminton] :=
  (sortAndRenumber_spec [cardArchery, cardBadminton] [cardBadminton, cardArchery]
    (by decide) (by decide)).2.2.2

/-- Counterexample to C5's order-independence as stated: two highlights of the
same sport in swapped input order produce different decks — the stable sort
keeps tied cards in input order. -/
theorem sortAndRenumber_order_counterexample :
    generateHTMLCards (fun _ => "") [judoHighlightA, judoHighlightB] ≠
      generateHTMLCards (fun _ => "") [judoHighlightB, judoHighlightA] := by decide

/-! ## Claim C6: pagination -/

theorem chunkSlices_cons (n : Nat) (l : List Card) (h : l ≠ []) :
    chunkSlices n l = l.take (n + 1) :: chunkSlices n (l.drop (n + 1)) := by
  cases l with
  | nil => exact absurd rfl h
  | cons x xs =>
      rw [chunkSlices]
      simp [List.drop_succ_cons]

theorem chunkSlices_flatten (n : Nat) (l : List Card) :
    (chunkSlices n l).flatten = l := by
  induction l using chunkSlices.induct n with
  | case1 => simp [chunkSlices]
  | case2 x xs ih =>
      rw [chunkSlices]
      simp only [List.flatten_cons, ih]
      rw [← List.drop_succ_cons (n := n) (a := x)]
      exact List.take_append_drop (n + 1) (x :: xs)

theorem chunkSlices_le (n : Nat) (l : List Card) :
    ∀ s ∈ chunkSlices n l, s.length ≤ n + 1 := by
  induction l using chunkSlices.induct n with
  | case1 => simp [chunkSlices]
  | case2 x xs ih =>
      rw [chunkSlices]
      intro s hs
      rcases List.mem_cons.mp hs with h | h
      · subst h
        simp
      · exact ih s h

theorem chunkSlices_eq_nil_iff (n : Nat) (l : List Card) :
    chunkSlices n l = [] ↔ l = [] := by
  cases l with
  | nil => simp [chunkSlices]
  | cons x xs => rw [chunkSlices]; simp

/-- C6 (confirmed): `chunkCards(cards, 9)` splits the deck into contiguous
slides of at most 9 cards whose concatenation is the input, an empty input
yields exactly one empty slide, and 19 cards yield slides of sizes 9, 9, 1. -/
theorem chunkCards_spec (cards : List Card) (h19 : cards.length = 19) :
    (∀ cs : List Card, (chunkCards cs 9).flatten = cs ∧ ∀ s ∈ chunkCards cs 9, s.length ≤ 9) ∧
    chunkCards ([] : List Card) 9 = [[]] ∧
    (chunkCards cards 9).map List.length = [9, 9, 1] := by
  have hmain : ∀ cs : List Card, (chunkCards cs 9).flatten = cs ∧ ∀ s ∈ chunkCards cs 9, s.length ≤ 9 := by
    intro cs
    by_cases he : (chunkSlices 8 cs).isEmpty
    · have hnil : cs = [] := (chunkSlices_eq_nil_iff 8 cs).mp (List.isEmpty_iff.mp he)
      subst hnil
      exact ⟨by simp [chunkCards, chunkSlices], by simp [chunkCards, chunkSlices]⟩
    · have hrw : chunkCards cs 9 = chunkSlices 8 cs := by
        unfold chunkCards
        simp [he]
      rw [hrw]
      exact ⟨chunkSlices_flatten 8 cs, chunkSlices_le 8 cs⟩
  refine ⟨hmain, by simp [chunkCards, chunkSlices], ?_⟩
  have h1 : cards ≠ [] := List.ne_nil_of_length_pos (by omega)
  have h2 : cards.drop 9 ≠ [] := by
    apply List.ne_nil_of_length_pos
    simp [h19]
  have h3 : (cards.drop 9).drop 9 ≠ [] := by
    apply List.ne_nil_of_length_pos
    simp [h19]
  have h4 : ((cards.drop 9).drop 9).drop 9 = [] := by
    apply List.eq_nil_of_length_eq_zero
    simp [h19]
  unfold chunkCards
  rw [if_neg (by omega)]
  rw [chunkSlices_cons 8 cards h1, chunkSlices_cons 8 (cards.drop 9) h2,
      chunkSlices_cons 8 ((cards.drop 9).drop 9) h3, h4]
  simp only [chunkSlices]
  simp [List.length_take, h19]

/-- Witness for C6 at a concrete 19-card deck. -/
theorem chunkCards_spec_witness :
    (chunkCards (List.replicate 19 sampleCard) 9).map List.length = [9, 9, 1] :=
  (chunkCards_spec (List.replicate 19 sampleCard) (by simp)).2.2

/-! ## Claim C7: date normalization (code bug on year-first slash forms) -/

/-- C7 (code bug): the claim says a year-first slash-delimited date such as
`"2024/12/25"` normalizes to `"2024-12-25"`, and the source's dead
`parts[0].length === 4` test shows year-first handling was intended; but the
`year > 2000` test reads the third part (`25`), so the code takes the
month-first branch and builds `Date(25, 2023, 12)` — year 25 maps to 1925,
168 years of months roll over — and returns `"2093-08-12"`. -/
theorem normalizeDate_yearFirst_bug :
    normalizeDate noFallback (JsDateInput.str "2024/12/25") = "2093-08-12" ∧
    ("2093-08-12" : String) ≠ "2024-12-25" ∧
    normalizeDate noFallback (JsDateInput.str "25/12/2024") = "2024-12-25" ∧
    normalizeDate noFallback (JsDateInput.str "2024-12-25") = "2024-12-25" := by decide

/-! ## Claim C8: result badge -/

/-- C8 (corrected): the badge source is the trimmed win/draw/lose field
whenever it is non-empty — even when it is a null-marker, in which case the
medal label is NOT used — and the medal label otherwise; the badge is then
suppressed exactly when it is empty or one of `"na"`, `"n/a"`, `"none"`
case-insensitively, so the null-markers `"no medal"` and `"nil"` render
literally. -/
theorem resultBadge_amended_correct (iconFor : String → String) (h : Highlight) (i : Nat) :
    (buildCardFromHighlight iconFor h i).resultBadge =
      resultBadgeAmended h.winDrawLose (normalizeMedal h.medals).label := by
  unfold buildCardFromHighlight resultBadgeAmended
  by_cases hw : jsTrim h.winDrawLose = "" <;>
    by_cases hl : (normalizeMedal h.medals).label = "" <;>
      by_cases hc : jsToLower (if jsTrim h.winDrawLose = "" then (normalizeMedal h.medals).label else jsTrim h.winDrawLose) ∈ (["na", "n/a", "none"] : List String) <;>
        simp_all

/-- Counterexample to C8 as stated: for a win/draw/lose value `"nil"` with a
gold medal, the claim predicts the medal label `"Gold"` (a null-marker badge
falls back and is never shown literally), but the code renders `"nil"`
literally. -/
theorem resultBadge_claim_counterexample :
    (buildCardFromHighlight (fun _ => "") badgeHighlight 1).resultBadge = "nil" ∧
    resultBadgeClaim badgeHighlight.winDrawLose (normalizeMedal badgeHighlight.medals).label = "Gold" ∧
    ("nil" : String) ≠ "Gold" := by decide

/-! ## Claim C9: competitors of a card -/

/-- C9 (confirmed): every card has exactly one primary competitor, listed
first, and at most one secondary competitor; a secondary competitor is
present exactly when the record is classified head-to-head and at least one
of the opponent name or opponent country is non-empty, independent of the
scores. -/
theorem card_competitors_spec (iconFor : String → String) (h : Highlight) (i : Nat) :
    ((buildCardFromHighlight iconFor h i).competitors.head?.map Competitor.isPrimary) = some true ∧
    (buildCardFromHighlight iconFor h i).competitors.countP (fun x => x.isPrimary) = 1 ∧
    (buildCardFromHighlight iconFor h i).competitors.length ≤ 2 ∧
    ((buildCardFromHighlight iconFor h i).competitors.length = 2 ↔
      (h.type = "h2h" ∧ (jsTrim h.competitorName ≠ "" ∨ jsTrim h.competitorCountry ≠ ""))) := by
  unfold buildCardFromHighlight
  by_cases hh : h.type = "h2h"
  · by_cases hp : (jsTrim h.competitorName ≠ "" ∨ jsTrim h.competitorCountry ≠ "")
    · simp [hh, hp, List.countP_cons]
    · simp [hh, hp, List.countP_cons]
  · simp [hh, List.countP_cons]

/-! ## Claim C10: placeholders keep the card fields non-empty -/

/-- C10 (confirmed): every card built from a normalized record has a
non-empty sport label (falling back to `"Sport Name"` when both sport cells
are empty), a non-empty primary athlete name (`"Athlete Name"` when the cell
is empty), a non-empty primary country (`"SGP"` when the cell is empty), and
a head-to-head opponent with a country but no name is rendered as
`"Opponent"`. -/
theorem card_placeholder_fields (m : Option (List String)) (row : RawRow) (i : Nat)
    (iconFor : String → String) :
    ((buildCardFromHighlight iconFor (formatHighlightData m row) i).sport ≠ "" ∧
      ((jsTrim row.sport = "" ∧ jsTrim row.sportTeamsg = "") →
        (buildCardFromHighlight iconFor (formatHighlightData m row) i).sport = "Sport Name")) ∧
    ((buildCardFromHighlight iconFor (formatHighlightData m row) i).competitors.head?.map Competitor.name =
        some (buildCardFromHighlight iconFor (formatHighlightData m row) i).athletes ∧
      (buildCardFromHighlight iconFor (formatHighlightData m row) i).athletes ≠ "" ∧
      (jsTrim row.athleteName = "" →
        (buildCardFromHighlight iconFor (formatHighlightData m row) i).athletes = "Athlete Name")) ∧
    ((buildCardFromHighlight iconFor (formatHighlightData m row) i).competitors.head?.map Competitor.country ≠
        some "" ∧
      (jsTrim row.countrySgp = "" →
        (buildCardFromHighlight iconFor (formatHighlightData m row) i).competitors.head?.map
          Competitor.country = some "SGP")) ∧
    (((formatHighlightData m row).type = "h2h" ∧ jsTrim row.competitorName = "" ∧
        jsTrim row.competitorCountry ≠ "") →
      (buildCardFromHighlight iconFor (formatHighlightData m row) i).competitors.map Competitor.name =
        [(buildCardFromHighlight iconFor (formatHighlightData m row) i).athletes, "Opponent"]) := by
  have hSN : jsTrim "Sport Name" = "Sport Name" := by decide
  have hAN : jsTrim "Athlete Name" = "Athlete Name" := by decide
  have hSG : jsTrim "SGP" = "SGP" := by decide
  have hSGne : ("SGP" : String) ≠ "" := by decide
  have hE : jsTrim "" = "" := by decide
  have hT : (formatHighlightData m row).sportTeamsg =
      (if jsTrim row.sportTeamsg = "" then jsTrim row.sport else jsTrim row.sportTeamsg) := rfl
  have hS : (formatHighlightData m row).sport = jsTrim row.sport := rfl
  have hA : (formatHighlightData m row).athleteName = jsTrim row.athleteName := rfl
  have hC : (formatHighlightData m row).countrySgp =
      (if jsTrim row.countrySgp = "" then "SGP" else jsTrim row.countrySgp) := rfl
  have hCN : (formatHighlightData m row).competitorName = jsTrim row.competitorName := rfl
  have hCC : (formatHighlightData m row).competitorCountry = jsTrim row.competitorCountry := rfl
  refine ⟨⟨?_, ?_⟩, ⟨?_, ?_, ?_⟩, ⟨?_, ?_⟩, ?_⟩
  · unfold buildCardFromHighlight
    rw [hT, hS]
    by_cases ht : jsTrim row.sportTeamsg = "" <;> by_cases hs : jsTrim row.sport = "" <;>
      simp_all [jsTrim_idem, hE]
  · intro hcond
    unfold buildCardFromHighlight
    rw [hT, hS]
    simp_all [jsTrim_idem, hE]
  · unfold buildCardFromHighlight
    by_cases hh : (formatHighlightData m row).type = "h2h"
    · by_cases hp : (jsTrim (formatHighlightData m row).competitorName ≠ "" ∨
        jsTrim (formatHighlightData m row).competitorCountry ≠ "") <;> simp [hh, hp]
    · simp [hh]
  · unfold buildCardFromHighlight
    rw [hA]
    by_cases ha : jsTrim row.athleteName = "" <;> simp_all [jsTrim_idem, hE]
  · intro ha
    unfold buildCardFromHighlight
    rw [hA]
    simp_all [jsTrim_idem, hE]
  · unfold buildCardFromHighlight
    rw [hC, hCN, hCC]
    by_cases hh : (formatHighlightData m row).type = "h2h" <;>
      by_cases hp : (jsTrim (jsTrim row.competitorName) ≠ "" ∨ jsTrim (jsTrim row.competitorCountry) ≠ "") <;>
        by_cases hc : jsTrim row.countrySgp = "" <;>
          simp_all [jsTrim_idem, hE]
  · intro hc
    unfold buildCardFromHighlight
    rw [hC, hCN, hCC]
    by_cases hh : (formatHighlightData m row).type = "h2h" <;>
      by_cases hp : (jsTrim (jsTrim row.competitorName) ≠ "" ∨ jsTrim (jsTrim row.competitorCountry) ≠ "") <;>
        simp_all [jsTrim_idem, hE]
  · intro hcond
    unfold buildCardFromHighlight
    rw [hA, hCN, hCC]
    have hp : (jsTrim (jsTrim row.competitorName) ≠ "" ∨ jsTrim (jsTrim row.competitorCountry) ≠ "") := by
      right
      rw [jsTrim_idem]
      exact hcond.2.2
    simp_all [jsTrim_idem, hE]
